import Mathlib

/-!
Shallow embedding of the ghostmkg/server fleet proxy: the token-bucket rate
limiter, the shared job queue, the candidate session store, the upstream
forwarder, the candidate-context middleware and the per-task worker state
machine, together with theorems checking the specification claims against
this embedding.  Numbers that are JavaScript floats in the source are
modelled as rationals; timestamps are integers.  JavaScript truthiness on
strings and numbers (empty string and zero are falsy) is modelled
explicitly wherever the source relies on it.
-/

namespace Server

/-- Result type of the rate limiter calls (RateLimitResult in
rate/limiter.ts): an ok flag plus an optional retryAfterMs hint. -/
structure RateLimitResult where
  ok : Bool
  retryAfterMs : Option ℤ
deriving Repr, DecidableEq

/-- Persisted token-bucket state: the value stored in the coordination
store under one key per bucket, a pair of the remaining tokens and the
timestamp of the last refill. -/
structure BucketState where
  tokens : ℚ
  lastRefill : ℤ
deriving Repr, DecidableEq

namespace RateLimiter

/-- Constructor defaults of the RateLimiter class in rate/limiter.ts. -/
structure Config where
  perIdRps : ℚ := 9
  perIdBurst : ℚ := 18
  globalRps : ℚ := 40
  globalBurst : ℚ := 80
deriving Repr, DecidableEq

/-- JavaScript (x || dflt) on an optional number: undefined and 0 are
falsy, so both fall back to the default. -/
def jsOrNum (x : Option ℚ) (dflt : ℚ) : ℚ :=
  match x with
  | some v => if v = 0 then dflt else v
  | none => dflt

/-- The 1000 ms window used by both take and takeGlobal (windowMs). -/
def windowMs : ℚ := 1000

/-- The refill lines of the Lua script: tokens replenished linearly in the
elapsed time, clamped to maxTokens. -/
def refillTokens (rate maxTokens : ℚ) (now : ℤ) (tokens0 : ℚ) (lastRefill : ℤ) : ℚ :=
  let elapsed : ℚ := ((now : ℚ) - (lastRefill : ℚ)) / windowMs
  min maxTokens (tokens0 + rate * elapsed)

/-- One run of the atomic Lua token-bucket script of rate/limiter.ts.
A missing key defaults to a full bucket refilled just now.  Returns the
Lua result triple (allowed flag, tokens, retryAfterMs) together with the
key state after the call; the script writes the key only in the allowed
branch, so a denied call leaves the stored state unchanged. -/
def luaTakeStep (rate maxTokens : ℚ) (now : ℤ) (stored : Option BucketState) :
    (ℤ × ℚ × ℤ) × Option BucketState :=
  let tokens0 : ℚ := match stored with | some st => st.tokens | none => maxTokens
  let lastRefill : ℤ := match stored with | some st => st.lastRefill | none => now
  let tokens := refillTokens rate maxTokens now tokens0 lastRefill
  if 1 ≤ tokens then
    ((1, tokens - 1, 0), some ⟨tokens - 1, now⟩)
  else
    ((0, tokens, Int.ceil ((1 - tokens) / rate * windowMs)), stored)

/-- Outcome of the interaction with the coordination store during one
limiter call: the connect call or the script eval can each throw. -/
inductive StoreOutcome where
  | ok
  | connectError (msg : String)
  | evalError (msg : String)
deriving Repr, DecidableEq

/-- The code after the script eval: maps the Lua triple to the TS-level
RateLimitResult, threading the persisted bucket state. -/
def takeResult (rate maxTokens : ℚ) (now : ℤ) (stored : Option BucketState) :
    RateLimitResult × Option BucketState :=
  let r := luaTakeStep rate maxTokens now stored
  if r.1.1 = 1 then (⟨true, none⟩, r.2) else (⟨false, some r.1.2.2⟩, r.2)

/-- RateLimiter.take: connect (outside the try block, so a connect failure
propagates), resolve rate and burst against the per-identity defaults, run
the atomic script, and on a thrown script eval return ok (fail open). -/
def take (cfg : Config) (rps burst : Option ℚ) (now : ℤ) (stored : Option BucketState)
    (outcome : StoreOutcome) : Except String (RateLimitResult × Option BucketState) :=
  match outcome with
  | .connectError msg => .error msg
  | .evalError _ => .ok (⟨true, none⟩, stored)
  | .ok => .ok (takeResult (jsOrNum rps cfg.perIdRps) (jsOrNum burst cfg.perIdBurst) now stored)

/-- RateLimiter.takeGlobal: identical to take except that it uses the
single global key and the global defaults. -/
def takeGlobal (cfg : Config) (rps burst : Option ℚ) (now : ℤ) (stored : Option BucketState)
    (outcome : StoreOutcome) : Except String (RateLimitResult × Option BucketState) :=
  match outcome with
  | .connectError msg => .error msg
  | .evalError _ => .ok (⟨true, none⟩, stored)
  | .ok => .ok (takeResult (jsOrNum rps cfg.globalRps) (jsOrNum burst cfg.globalBurst) now stored)

/-- The continuous token-bucket rule exactly as the specification words it
(section 4.1): elapsedWindows, clamped linear refill, decrement-and-persist
on success, ceil retry hint on denial.  Written from the spec sentence, to
be compared with the source-derived takeResult. -/
def specTake (rate maxTokens : ℚ) (now : ℤ) (st : BucketState) :
    RateLimitResult × Option BucketState :=
  let elapsedWindows : ℚ := ((now : ℚ) - (st.lastRefill : ℚ)) / windowMs
  let tokens : ℚ := min maxTokens (st.tokens + rate * elapsedWindows)
  if 1 ≤ tokens then
    (⟨true, none⟩, some ⟨tokens - 1, now⟩)
  else
    (⟨false, some (Int.ceil ((1 - tokens) / rate * windowMs))⟩, some st)

/-- Runs a sequence of store-reaching take calls against one bucket, one
call per listed timestamp, threading the persisted state. -/
def runTakes (rate maxTokens : ℚ) (stored : Option BucketState) : List ℤ → Option BucketState
  | [] => stored
  | now :: rest => runTakes rate maxTokens (luaTakeStep rate maxTokens now stored).2 rest

end RateLimiter

/-! The proxy rate-limit middleware of routes/proxy.ts: per-identity check
first, then the global check, each call made with no overrides so the
constructor defaults apply. -/

/-- What the rate-limit middleware does with the request: pass it on to the
forwarder, or answer 429 (isGlobal marks which budget was exhausted). -/
inductive RLOutcome where
  | next
  | reject429 (retryAfterMs : Option ℤ) (isGlobal : Bool)
deriving Repr, DecidableEq

/-- rateLimitMiddleware in routes/proxy.ts, on the path where the store is
reachable: take on the per-identity bucket; if denied answer 429 at once
(the global bucket is untouched); otherwise takeGlobal on the global
bucket; if that is denied answer 429 — the per-identity bucket keeps the
state the first call persisted. -/
def rateLimitMiddleware (cfg : RateLimiter.Config) (now : ℤ)
    (perIdStored globalStored : Option BucketState) :
    RLOutcome × Option BucketState × Option BucketState :=
  let perId := RateLimiter.takeResult (RateLimiter.jsOrNum none cfg.perIdRps)
    (RateLimiter.jsOrNum none cfg.perIdBurst) now perIdStored
  if !perId.1.ok then
    (.reject429 perId.1.retryAfterMs false, perId.2, globalStored)
  else
    let global := RateLimiter.takeResult (RateLimiter.jsOrNum none cfg.globalRps)
      (RateLimiter.jsOrNum none cfg.globalBurst) now globalStored
    if !global.1.ok then
      (.reject429 global.1.retryAfterMs true, perId.2, global.2)
    else
      (.next, perId.2, global.2)

/-! The shared job queue of store/queue.ts.  Tasks live in one list under a
single key; JSON serialization on push and parse on pop are abstracted as
the identity, so a task is just the record the distribution endpoint built. -/

/-- A queued task: one (identity x job) combination built by the /start
endpoint; immutable once enqueued. -/
structure Task where
  jobId : String
  scheduleId : String
  candidateId : String
  authToken : String
  cookieHeader : String
deriving Repr, DecidableEq

namespace JobQueue

/-- JobQueue.addTasks: deletes the backlog key, then pushes every task of
the batch onto the right end of the (now empty) list, in order. -/
def addTasks (tasks : List Task) (_queue : List Task) : List Task :=
  tasks.foldl (fun acc t => acc ++ [t]) []

/-- JobQueue.getNextTask: pops one task from the left end of the list, or
reports the queue empty; never blocks. -/
def getNextTask (queue : List Task) : Option Task × List Task :=
  match queue with
  | [] => (none, [])
  | t :: rest => (some t, rest)

/-- Repeatedly calls getNextTask until it reports the queue empty,
collecting the popped tasks in order.  The fuel argument only bounds the
recursion; any fuel of at least the queue length drains it fully. -/
def drainAux : ℕ → List Task → List Task
  | 0, _ => []
  | n + 1, queue =>
    match getNextTask queue with
    | (none, _) => []
    | (some t, rest) => t :: drainAux n rest

/-- Drains the whole queue by successive getNextTask calls. -/
def drain (queue : List Task) : List Task :=
  drainAux (queue.length + 1) queue

end JobQueue

/-! The candidate session store of store/sessionStore.ts (the file the
claims cite as the second half of store/queue.ts). -/

/-- SameSite values of the Cookie DTO. -/
inductive SameSite where
  | Lax
  | Strict
  | NoneValue
deriving Repr, DecidableEq

/-- A cookie of the session jar.  The name, value and domain fields are
declared as strings in the DTO and checked by JavaScript truthiness, so an
empty string stands for a missing field; the remaining fields are genuinely
optional. -/
structure SCookie where
  name : String
  value : String
  domain : String
  path : Option String
  expires : Option ℤ
  httpOnly : Option Bool
  secure : Option Bool
  sameSite : Option SameSite
deriving Repr, DecidableEq

/-- A stored candidate session record. -/
structure CandidateSession where
  candidateId : String
  accessToken : String
  cookies : List SCookie
  csrf : Option String
  updatedAt : ℤ
  expiresAt : Option ℤ
deriving Repr, DecidableEq

namespace SessionStore

/-- JavaScript (s || dflt) on an optional string: undefined and the empty
string are falsy. -/
def jsOrStr (x : Option String) (dflt : String) : String :=
  match x with
  | some s => if s.isEmpty then dflt else s
  | none => dflt

/-- JavaScript (n || dflt) on an optional integer: undefined and 0 are
falsy. -/
def jsOrInt (x : Option ℤ) (dflt : ℤ) : ℤ :=
  match x with
  | some v => if v = 0 then dflt else v
  | none => dflt

/-- The truthiness test (cookie.expires && cookie.expires < now) of
normalizeCookies: an absent expires, and also the falsy value 0, skip the
expiry comparison. -/
def expiredByTruthyCheck (now : ℤ) (expires : Option ℤ) : Bool :=
  match expires with
  | some e => e ≠ 0 && e < now
  | none => false

/-- The filter predicate of SessionStore.normalizeCookies: keep a cookie
unless its truthy expires lies in the past, and only when its name, value
and domain are all truthy. -/
def keepCookie (now : ℤ) (c : SCookie) : Bool :=
  !expiredByTruthyCheck now c.expires &&
    (!c.name.isEmpty && !c.value.isEmpty && !c.domain.isEmpty)

/-- The map of SessionStore.normalizeCookies: default path to /, httpOnly
and secure to true and sameSite to Lax when unset. -/
def applyCookieDefaults (c : SCookie) : SCookie :=
  { c with
    path := some (jsOrStr c.path "/")
    httpOnly := some (c.httpOnly.getD true)
    secure := some (c.secure.getD true)
    sameSite := some (c.sameSite.getD .Lax) }

/-- SessionStore.normalizeCookies: drop any cookie whose truthy expires
lies in the past or whose name, value or domain is falsy; then apply the
defaults to the kept cookies. -/
def normalizeCookies (now : ℤ) (cookies : List SCookie) : List SCookie :=
  (cookies.filter (keepCookie now)).map applyCookieDefaults

/-- The session keyspace of the coordination store, one record per
candidate id. -/
def Store := String → Option CandidateSession

/-- The empty keyspace. -/
def emptyStore : Store := fun _ => none

/-- SessionStore.deleteCandidateSession: removes the record (the session
list set and the published expire event are not modelled). -/
def deleteCandidateSession (store : Store) (candidateId : String) : Store :=
  fun k => if k = candidateId then none else store k

/-- SessionStore.upsertCandidateSession: normalize the cookies at write
time, resolve the time-to-live against the 7-day default, and overwrite
the record with updatedAt set to now and expiresAt to now plus the
time-to-live.  The store-side key expiry and the published upsert event
are not modelled. -/
def upsertCandidateSession (now : ℤ) (store : Store) (candidateId accessToken : String)
    (cookies : List SCookie) (csrf : Option String) (ttlSeconds : Option ℤ) : Store :=
  let ttl := jsOrInt ttlSeconds (86400 * 7)
  let session : CandidateSession :=
    ⟨candidateId, accessToken, normalizeCookies now cookies, csrf, now, some (now + ttl)⟩
  fun k => if k = candidateId then some session else store k

/-- SessionStore.getCandidateSession: read the record, re-normalize its
cookies at read time, and if the record has a truthy expiresAt in the past
delete it and report not found.  Returns the answer and the keyspace after
the lazy expiry. -/
def getCandidateSession (now : ℤ) (store : Store) (candidateId : String) :
    Option CandidateSession × Store :=
  match store candidateId with
  | none => (none, store)
  | some found =>
    let session := { found with cookies := normalizeCookies now found.cookies }
    if expiredByTruthyCheck now session.expiresAt then
      (none, deleteCandidateSession store candidateId)
    else
      (some session, store)

end SessionStore

/-! The upstream forwarder of proxy/upstream.ts. -/

namespace Upstream

/-- Removes one leading dot, as the regex replace in serializeCookies
does; written on the character sequence. -/
def stripLeadingDot (s : String) : String :=
  match s.data with
  | '.' :: rest => ⟨rest⟩
  | _ => s

/-- The JavaScript endsWith test used by serializeCookies, written on the
character sequences: post must be a raw suffix of s. -/
def strEndsWith (s post : String) : Bool :=
  post.data.isSuffixOf s.data

/-- The domain test of serializeCookies: after stripping one leading dot
from each side, the target host must end with the cookie domain as a raw
string, or equal it. -/
def domainMatches (c : SCookie) (domain : String) : Bool :=
  let cookieDomain := stripLeadingDot c.domain
  let requestDomain := stripLeadingDot domain
  strEndsWith requestDomain cookieDomain || cookieDomain == requestDomain

/-- The expiry filter of serializeCookies, (!c.expires || c.expires > now):
an absent or falsy-zero expires passes, otherwise the expiry must lie
strictly in the future. -/
def cookieUnexpired (now : ℤ) (c : SCookie) : Bool :=
  match c.expires with
  | some e => e == 0 || now < e
  | none => true

/-- serializeCookies in proxy/upstream.ts: keep the cookies whose domain
matches the target host, drop the expired ones, and join name=value pairs
with a semicolon separator. -/
def serializeCookies (cookies : List SCookie) (domain : String) (now : ℤ) : String :=
  let relevantCookies := cookies.filter (fun c => domainMatches c domain)
  String.intercalate "; "
    ((relevantCookies.filter (cookieUnexpired now)).map fun c => c.name ++ "=" ++ c.value)

/-- The fixed request-header allow-list (safeHeaders) of
createUpstreamForwarder. -/
def safeHeaders : List String :=
  ["content-type", "accept", "accept-language", "user-agent",
   "x-requested-with", "origin", "referer"]

/-- The incoming request headers, keyed by the lowercased header name as
the express headers object is. -/
def Headers := String → Option String

/-- The forEach over safeHeaders: copy each allow-listed header whose
incoming value is truthy (present and nonempty). -/
def propagatedHeaders (reqHeaders : Headers) : List (String × String) :=
  safeHeaders.filterMap fun h =>
    match reqHeaders h with
    | some v => if v.isEmpty then none else some (h, v)
    | none => none

/-- The full upstream header set built by createUpstreamForwarder: the
propagated allow-listed headers followed by the injected credentials — the
bearer token when truthy, the Cookie header synthesized from the jar (the
cookies array is always truthy in the source, so the header is always
set), and the csrf token when truthy. -/
def buildUpstreamHeaders (reqHeaders : Headers) (session : CandidateSession)
    (targetHost : String) (now : ℤ) : List (String × String) :=
  propagatedHeaders reqHeaders
    ++ (if session.accessToken.isEmpty then []
        else [("Authorization", session.accessToken)])
    ++ [("Cookie", serializeCookies session.cookies targetHost now)]
    ++ (match session.csrf with
        | some c => if c.isEmpty then [] else [("X-Csrf-Token", c)]
        | none => [])

end Upstream

/-! The candidate-context middleware of mw/candidateContext.ts. -/

/-- The parts of an incoming proxy request that the middleware inspects:
the two body spellings of the identity (absent when the body is not an
object), the x-candidate-id header, and the two query spellings.  Empty
strings are possible everywhere and are falsy. -/
structure ProxyRequest where
  hasObjectBody : Bool
  bodyCandidateUnderscore : Option String
  bodyCandidateCamel : Option String
  headerCandidateId : Option String
  queryCandidateUnderscore : Option String
  queryCandidateCamel : Option String
deriving Repr, DecidableEq

namespace CandidateContext

/-- JavaScript truthiness on an optional string value: keeps the value
only when present and nonempty. -/
def truthyOpt (x : Option String) : Option String :=
  match x with
  | some s => if s.isEmpty then none else some s
  | none => none

/-- The resolution chain of createCandidateContextMiddleware: the body
fields (candidate_id, then candidateId) when the body is an object, then
the x-candidate-id header, then the query parameters (candidate_id, then
candidateId); each JavaScript or-chain collapses falsy values to null. -/
def resolveCandidateId (req : ProxyRequest) : Option String :=
  let fromBody :=
    if req.hasObjectBody then
      match truthyOpt req.bodyCandidateUnderscore with
      | some s => some s
      | none => truthyOpt req.bodyCandidateCamel
    else none
  let afterHeader :=
    match fromBody with
    | some s => some s
    | none => truthyOpt req.headerCandidateId
  match afterHeader with
  | some s => some s
  | none =>
    match truthyOpt req.queryCandidateUnderscore with
    | some s => some s
    | none => truthyOpt req.queryCandidateCamel

/-- The priority order exactly as the specification words it: the first
truthy value among the body fields, the header, and the query parameters,
in that order.  Written from the spec sentence, to be compared with the
source-derived resolveCandidateId. -/
def resolveCandidateIdSpec (req : ProxyRequest) : Option String :=
  [if req.hasObjectBody then truthyOpt req.bodyCandidateUnderscore else none,
   if req.hasObjectBody then truthyOpt req.bodyCandidateCamel else none,
   truthyOpt req.headerCandidateId,
   truthyOpt req.queryCandidateUnderscore,
   truthyOpt req.queryCandidateCamel].findSome? id

/-- What the middleware does with the request: answer 400 without calling
the next handler (so the forwarder never runs and no upstream call is
made), or attach the resolved identity and session and call next. -/
inductive MwOutcome where
  | respond400 (error : String)
  | proceed (candidateId : String) (session : CandidateSession)
deriving Repr, DecidableEq

/-- createCandidateContextMiddleware: resolve the identity, answer 400
when none is found, load the session through the store (the lazy-expiry
read), answer 400 when there is none, else attach the context and pass
the request on. -/
def candidateContextMiddleware (now : ℤ) (store : SessionStore.Store)
    (req : ProxyRequest) : MwOutcome :=
  match resolveCandidateId req with
  | none => .respond400 "unknown_candidate"
  | some candidateId =>
    match (SessionStore.getCandidateSession now store candidateId).1 with
    | none => .respond400 "unknown_candidate"
    | some session => .proceed candidateId session

end CandidateContext

/-! The per-task worker state machine.  The repository holds two revisions
of the worker loop; the specification (section 9) designates the two-phase
create-then-poll variant, embedded here: phase one repeats the create call
until an application id is obtained, phase two repeats the update call and
stops for good on the first confirmation. -/

namespace JobWorker

/-- The phase of the worker loop: still creating, polling a known
application id, or finished. -/
inductive Phase where
  | creating
  | polling (applicationId : String)
  | finished
deriving Repr, DecidableEq

/-- Per-task worker runtime: the cooperative active flag plus the loop
phase. -/
structure WorkerState where
  active : Bool
  phase : Phase
deriving Repr, DecidableEq

/-- Outcome of one create-application call as the worker sees it: an HTTP
response carrying a status and the optional application id of its body, or
a thrown network error. -/
inductive CreateOutcome where
  | response (status : ℤ) (applicationId : Option String)
  | networkError
deriving Repr, DecidableEq

/-- Outcome of one update-application call: an HTTP response carrying a
status and the optional errors array of its body, or a thrown network
error. -/
inductive UpdateOutcome where
  | response (status : ℤ) (errors : Option (List String))
  | networkError
deriving Repr, DecidableEq

/-- Observable actions of one loop iteration: which upstream call was
issued and which log events were published. -/
inductive Event where
  | callCreate
  | callUpdate
  | logSuccess
  | logError
deriving Repr, DecidableEq

/-- JobWorker.createApplication: a 200 response whose body carries an
application id publishes a success log and returns the id; any other
response returns null silently (a 429 only prints a console warning); a
thrown error publishes an error log and returns null. -/
def createApplication (o : CreateOutcome) : Option String × List Event :=
  match o with
  | .response status applicationId =>
    if status = 200 then
      match applicationId with
      | some appId => (some appId, [.logSuccess])
      | none => (none, [])
    else (none, [])
  | .networkError => (none, [.logError])

/-- JobWorker.updateApplication: confirmed exactly when the response is a
200 whose body reports no errors (the errors field absent, or an empty
array); every other outcome, including a thrown error, reports false. -/
def updateConfirmed (o : UpdateOutcome) : Bool :=
  match o with
  | .response status errors =>
    status == 200 && (errors == none || errors == some [])
  | .networkError => false

/-- The environment of one loop iteration: whether a stop request arrived
before it, and the outcome the upstream would give to whichever call the
worker issues. -/
structure EnvInput where
  stopRequested : Bool
  createOutcome : CreateOutcome
  updateOutcome : UpdateOutcome
deriving Repr, DecidableEq

/-- One iteration of JobWorker.startLoop (two-phase variant).  A stop
request clears the active flag at the loop guard; an inactive worker does
nothing.  In the creating phase the worker issues a create call and, on an
application id, moves to polling (otherwise it sleeps and retries).  In
the polling phase it issues an update call; a confirmation publishes the
success log, clears the active flag and ends the machine, anything else
sleeps and polls again. -/
def stepWorker (s : WorkerState) (e : EnvInput) : WorkerState × List Event :=
  let s := if e.stopRequested then { s with active := false } else s
  if !s.active then (s, [])
  else
    match s.phase with
    | .creating =>
      let r := createApplication e.createOutcome
      match r.1 with
      | some appId => ({ s with phase := .polling appId }, .callCreate :: r.2)
      | none => (s, .callCreate :: r.2)
    | .polling _ =>
      if updateConfirmed e.updateOutcome then
        ({ active := false, phase := .finished }, [.callUpdate, .logSuccess])
      else (s, [.callUpdate])
    | .finished => (s, [])

/-- Runs the worker loop over a list of iteration environments, collecting
every observable event in order. -/
def runWorker (s : WorkerState) : List EnvInput → WorkerState × List Event
  | [] => (s, [])
  | e :: es =>
    let r := stepWorker s e
    let rest := runWorker r.1 es
    (rest.1, r.2 ++ rest.2)

end JobWorker

/-! Helper lemmas shared by the claim theorems. -/

lemma takeResult_some_eq_specTake (rate maxTokens : ℚ) (now : ℤ) (st : BucketState) :
    RateLimiter.takeResult rate maxTokens now (some st) =
      RateLimiter.specTake rate maxTokens now st := by
  simp only [RateLimiter.takeResult, RateLimiter.luaTakeStep, RateLimiter.refillTokens,
    RateLimiter.specTake]
  by_cases h :
      1 ≤ min maxTokens (st.tokens + rate * (((now : ℚ) - (st.lastRefill : ℚ)) / RateLimiter.windowMs))
  · simp [h]
  · simp [h]

lemma specTake_denied_retry_pos (rate maxTokens : ℚ) (now : ℤ) (st : BucketState)
    (hr : 0 < rate) (m : ℤ)
    (hm : (RateLimiter.specTake rate maxTokens now st).1.retryAfterMs = some m) : 0 < m := by
  simp only [RateLimiter.specTake] at hm
  by_cases h :
      1 ≤ min maxTokens (st.tokens + rate * (((now : ℚ) - (st.lastRefill : ℚ)) / RateLimiter.windowMs))
  · simp [h] at hm
  · simp [h] at hm
    subst hm
    refine Int.ceil_pos.mpr ?_
    have h1 :
        min maxTokens (st.tokens + rate * (((now : ℚ) - (st.lastRefill : ℚ)) / RateLimiter.windowMs)) < 1 :=
      not_le.mp h
    have h2 :
        (0 : ℚ) <
          1 - min maxTokens (st.tokens + rate * (((now : ℚ) - (st.lastRefill : ℚ)) / RateLimiter.windowMs)) := by
      linarith
    have h3 : (0 : ℚ) < RateLimiter.windowMs := by norm_num [RateLimiter.windowMs]
    exact mul_pos (div_pos h2 hr) h3

lemma foldl_push_eq_append (ts : List Task) :
    ∀ acc : List Task, ts.foldl (fun acc t => acc ++ [t]) acc = acc ++ ts := by
  induction ts with
  | nil => intro acc; simp
  | cons t ts ih => intro acc; simp [ih]

lemma addTasks_eq (ts q : List Task) : JobQueue.addTasks ts q = ts := by
  simp [JobQueue.addTasks, foldl_push_eq_append]

lemma drainAux_eq (q : List Task) : ∀ fuel, q.length ≤ fuel → JobQueue.drainAux fuel q = q := by
  induction q with
  | nil =>
    intro fuel _
    cases fuel with
    | zero => rfl
    | succ n => rfl
  | cons t rest ih =>
    intro fuel hfuel
    cases fuel with
    | zero => simp at hfuel
    | succ n =>
      have : rest.length ≤ n := by simpa using hfuel
      simp [JobQueue.drainAux, JobQueue.getNextTask, ih n this]

lemma drain_eq (q : List Task) : JobQueue.drain q = q :=
  drainAux_eq q (q.length + 1) (by omega)

/-! Claim theorems. -/

/-- C1: every take and takeGlobal call that reaches the store computes its
answer by the continuous token-bucket rule of the spec — linear refill
clamped to maxTokens, decrement and persist (tokens, now) when at least
one token is available, otherwise a denial carrying
ceil((1 - tokens) / rate * windowMs), which is positive. -/
theorem take_follows_token_bucket_rule (cfg : RateLimiter.Config) (rps burst : Option ℚ)
    (now : ℤ) (st : BucketState)
    (hPerId : 0 < RateLimiter.jsOrNum rps cfg.perIdRps)
    (hGlobal : 0 < RateLimiter.jsOrNum rps cfg.globalRps) :
    RateLimiter.take cfg rps burst now (some st) .ok =
        .ok (RateLimiter.specTake (RateLimiter.jsOrNum rps cfg.perIdRps)
          (RateLimiter.jsOrNum burst cfg.perIdBurst) now st)
    ∧ RateLimiter.takeGlobal cfg rps burst now (some st) .ok =
        .ok (RateLimiter.specTake (RateLimiter.jsOrNum rps cfg.globalRps)
          (RateLimiter.jsOrNum burst cfg.globalBurst) now st)
    ∧ (∀ m, (RateLimiter.specTake (RateLimiter.jsOrNum rps cfg.perIdRps)
          (RateLimiter.jsOrNum burst cfg.perIdBurst) now st).1.retryAfterMs = some m → 0 < m)
    ∧ (∀ m, (RateLimiter.specTake (RateLimiter.jsOrNum rps cfg.globalRps)
          (RateLimiter.jsOrNum burst cfg.globalBurst) now st).1.retryAfterMs = some m → 0 < m) :=
  ⟨by simp [RateLimiter.take, takeResult_some_eq_specTake],
   by simp [RateLimiter.takeGlobal, takeResult_some_eq_specTake],
   fun m hm => specTake_denied_retry_pos _ _ _ _ hPerId m hm,
   fun m hm => specTake_denied_retry_pos _ _ _ _ hGlobal m hm⟩

/-- C1 witness: a concrete call on a bucket holding half a token at the
current instant is denied with a positive retry hint, matching the spec
rule. -/
theorem take_follows_token_bucket_rule_witness :
    (0 : ℚ) < RateLimiter.jsOrNum none (RateLimiter.Config.mk 9 18 40 80).perIdRps
    ∧ (0 : ℚ) < RateLimiter.jsOrNum none (RateLimiter.Config.mk 9 18 40 80).globalRps
    ∧ (RateLimiter.take (RateLimiter.Config.mk 9 18 40 80) none none 0 (some ⟨1/2, 0⟩) .ok =
          .ok (RateLimiter.specTake 9 18 0 ⟨1/2, 0⟩)
        ∧ RateLimiter.takeGlobal (RateLimiter.Config.mk 9 18 40 80) none none 0 (some ⟨1/2, 0⟩) .ok =
          .ok (RateLimiter.specTake 40 80 0 ⟨1/2, 0⟩)
        ∧ (∀ m, (RateLimiter.specTake 9 18 0 ⟨1/2, 0⟩).1.retryAfterMs = some m → 0 < m)
        ∧ (∀ m, (RateLimiter.specTake 40 80 0 ⟨1/2, 0⟩).1.retryAfterMs = some m → 0 < m)) :=
  ⟨by norm_num [RateLimiter.jsOrNum], by norm_num [RateLimiter.jsOrNum],
   take_follows_token_bucket_rule (RateLimiter.Config.mk 9 18 40 80) none none 0 ⟨1/2, 0⟩
     (by norm_num [RateLimiter.jsOrNum]) (by norm_num [RateLimiter.jsOrNum])⟩

/-- C2: one store-reaching call preserves the bucket bounds, and stamps a
refill time no later than the call instant. -/
lemma luaTakeStep_preserves_bounds (rate maxTokens : ℚ) (now : ℤ)
    (stored : Option BucketState) (hr : 0 ≤ rate) (hm : 0 ≤ maxTokens)
    (hin : ∀ st ∈ stored, (0 ≤ st.tokens ∧ st.tokens ≤ maxTokens) ∧ st.lastRefill ≤ now) :
    ∀ st ∈ (RateLimiter.luaTakeStep rate maxTokens now stored).2,
      (0 ≤ st.tokens ∧ st.tokens ≤ maxTokens) ∧ st.lastRefill ≤ now := by
  cases stored with
  | none =>
    intro st hst
    simp only [RateLimiter.luaTakeStep, RateLimiter.refillTokens] at hst
    have helapsed : ((now : ℚ) - (now : ℚ)) / RateLimiter.windowMs = 0 := by
      simp
    rw [helapsed] at hst
    simp only [mul_zero, add_zero, min_self] at hst
    by_cases h : (1 : ℚ) ≤ maxTokens
    · simp only [h, if_true, Option.mem_def, Option.some.injEq] at hst
      subst hst
      refine ⟨⟨?_, ?_⟩, le_refl now⟩ <;> dsimp only <;> linarith
    · simp [h] at hst
  | some st0 =>
    intro st hst
    obtain ⟨⟨h0, h1⟩, h2⟩ := hin st0 rfl
    have hcast : (st0.lastRefill : ℚ) ≤ (now : ℚ) := by exact_mod_cast h2
    have helapsed : 0 ≤ ((now : ℚ) - (st0.lastRefill : ℚ)) / RateLimiter.windowMs := by
      have hw : (0 : ℚ) < RateLimiter.windowMs := by norm_num [RateLimiter.windowMs]
      exact div_nonneg (by linarith) hw.le
    simp only [RateLimiter.luaTakeStep, RateLimiter.refillTokens] at hst
    set tokens :=
      min maxTokens (st0.tokens + rate * (((now : ℚ) - (st0.lastRefill : ℚ)) / RateLimiter.windowMs))
      with htokens
    have htmax : tokens ≤ maxTokens := min_le_left _ _
    have ht0 : 0 ≤ tokens := by
      refine le_min hm ?_
      have := mul_nonneg hr helapsed
      linarith
    by_cases h : (1 : ℚ) ≤ tokens
    · simp only [h, if_true, Option.mem_def, Option.some.injEq] at hst
      subst hst
      refine ⟨⟨?_, ?_⟩, le_refl now⟩ <;> dsimp only <;> linarith
    · simp only [h, if_false, Option.mem_def, Option.some.injEq] at hst
      subst hst
      exact ⟨⟨h0, h1⟩, h2⟩

/-- C2: the bucket invariant carried along a whole non-decreasing trace of
store-reaching calls. -/
lemma runTakes_preserves_bounds (rate maxTokens : ℚ) (hr : 0 ≤ rate) (hm : 0 ≤ maxTokens) :
    ∀ (times : List ℤ) (stored : Option BucketState),
      times.Chain' (· ≤ ·) →
      (∀ st ∈ stored, (0 ≤ st.tokens ∧ st.tokens ≤ maxTokens) ∧
        ∀ t ∈ times.head?, st.lastRefill ≤ t) →
      ∀ st ∈ RateLimiter.runTakes rate maxTokens stored times,
        0 ≤ st.tokens ∧ st.tokens ≤ maxTokens := by
  intro times
  induction times with
  | nil =>
    intro stored _ hin st hst
    exact (hin st hst).1
  | cons now rest ih =>
    intro stored hchain hin st hst
    simp only [RateLimiter.runTakes] at hst
    refine ih (RateLimiter.luaTakeStep rate maxTokens now stored).2 hchain.tail ?_ st hst
    intro st1 hst1
    have hstep := luaTakeStep_preserves_bounds rate maxTokens now stored hr hm ?_ st1 hst1
    · refine ⟨hstep.1, ?_⟩
      intro t ht
      cases rest with
      | nil => simp at ht
      | cons b bs =>
        simp only [List.head?_cons, Option.mem_def, Option.some.injEq] at ht
        subst ht
        exact le_trans hstep.2 (List.chain'_cons.mp hchain).1
    · intro st2 hst2
      refine ⟨(hin st2 hst2).1, ?_⟩
      exact (hin st2 hst2).2 now (by simp)

/-- C2: for every rate bucket and every store-reaching call sequence with
non-decreasing timestamps, the persisted token count stays within zero and
maxTokens after every call (each prefix of the trace). -/
theorem bucket_tokens_stay_in_range (rate maxTokens : ℚ) (times : List ℤ) (n : ℕ)
    (hr : 0 ≤ rate) (hm : 0 ≤ maxTokens) (hmono : times.Chain' (· ≤ ·)) :
    ∀ st ∈ RateLimiter.runTakes rate maxTokens none (times.take n),
      0 ≤ st.tokens ∧ st.tokens ≤ maxTokens := by
  refine runTakes_preserves_bounds rate maxTokens hr hm (times.take n) none
    (hmono.take n) ?_
  intro st hst
  simp at hst

/-- C2 witness: three calls at instants 0, 0 and 1000 on the default
per-identity bucket keep the persisted count within the burst size. -/
theorem bucket_tokens_stay_in_range_witness :
    (0 : ℚ) ≤ 9 ∧ (0 : ℚ) ≤ 18 ∧ ([(0 : ℤ), 0, 1000].Chain' (· ≤ ·))
    ∧ ∀ st ∈ RateLimiter.runTakes 9 18 none ([(0 : ℤ), 0, 1000].take 3),
        0 ≤ st.tokens ∧ st.tokens ≤ 18 :=
  ⟨by norm_num, by norm_num, by norm_num [List.chain'_cons],
   bucket_tokens_stay_in_range 9 18 [0, 0, 1000] 3 (by norm_num) (by norm_num)
     (by norm_num [List.chain'_cons])⟩

lemma luaTakeStep_allowed_shape (rate maxTokens : ℚ) (now : ℤ) (stored : Option BucketState)
    (h : (RateLimiter.luaTakeStep rate maxTokens now stored).1.1 = 1) :
    ∃ tk : ℚ, RateLimiter.luaTakeStep rate maxTokens now stored = ((1, tk, 0), some ⟨tk, now⟩) := by
  cases stored with
  | none =>
    unfold RateLimiter.luaTakeStep at h ⊢
    by_cases hcond : 1 ≤ RateLimiter.refillTokens rate maxTokens now maxTokens now
    · exact ⟨RateLimiter.refillTokens rate maxTokens now maxTokens now - 1, by simp [hcond]⟩
    · simp [hcond] at h
  | some st0 =>
    unfold RateLimiter.luaTakeStep at h ⊢
    by_cases hcond : 1 ≤ RateLimiter.refillTokens rate maxTokens now st0.tokens st0.lastRefill
    · exact ⟨RateLimiter.refillTokens rate maxTokens now st0.tokens st0.lastRefill - 1,
        by simp [hcond]⟩
    · simp [hcond] at h

/-- C9: when the per-identity take allows and the subsequent takeGlobal
denies, the middleware answers 429 for the global budget, yet it leaves
persisted the per-identity bucket state that the first check wrote — the
allowed branch of the atomic script, which stores the decremented count
stamped at the call instant — so a globally-denied request still spends
one per-identity token. -/
theorem global_denial_spends_per_identity_token (cfg : RateLimiter.Config) (now : ℤ)
    (perIdStored globalStored : Option BucketState)
    (hAllow : (RateLimiter.takeResult cfg.perIdRps cfg.perIdBurst now perIdStored).1.ok = true)
    (hDeny : (RateLimiter.takeResult cfg.globalRps cfg.globalBurst now globalStored).1.ok = false) :
    (rateLimitMiddleware cfg now perIdStored globalStored).1 =
      .reject429
        (RateLimiter.takeResult cfg.globalRps cfg.globalBurst now globalStored).1.retryAfterMs
        true
    ∧ (rateLimitMiddleware cfg now perIdStored globalStored).2.1 =
        (RateLimiter.takeResult cfg.perIdRps cfg.perIdBurst now perIdStored).2
    ∧ ∃ st, (RateLimiter.takeResult cfg.perIdRps cfg.perIdBurst now perIdStored).2 = some st
        ∧ st.lastRefill = now
        ∧ RateLimiter.luaTakeStep cfg.perIdRps cfg.perIdBurst now perIdStored =
            ((1, st.tokens, 0), some st) := by
  have hok : (RateLimiter.luaTakeStep cfg.perIdRps cfg.perIdBurst now perIdStored).1.1 = 1 := by
    by_contra h
    simp [RateLimiter.takeResult, h] at hAllow
  obtain ⟨tk, hE⟩ := luaTakeStep_allowed_shape cfg.perIdRps cfg.perIdBurst now perIdStored hok
  have htr : RateLimiter.takeResult cfg.perIdRps cfg.perIdBurst now perIdStored =
      (⟨true, none⟩, some ⟨tk, now⟩) := by
    simp [RateLimiter.takeResult, hE]
  refine ⟨?_, ?_, ⟨tk, now⟩, ?_, rfl, ?_⟩
  · simp only [rateLimitMiddleware, RateLimiter.jsOrNum, htr]
    simp [hDeny]
  · simp only [rateLimitMiddleware, RateLimiter.jsOrNum, htr]
    simp [hDeny]
  · simp [htr]
  · exact hE

/-- C9 witness: at instant 0, a fresh per-identity bucket (burst 18)
allows while an empty global bucket denies; the middleware rejects with
429 and the per-identity store keeps the decremented count 17. -/
theorem global_denial_spends_per_identity_token_witness :
    (RateLimiter.takeResult (9 : ℚ) 18 0 none).1.ok = true
    ∧ (RateLimiter.takeResult (40 : ℚ) 80 0 (some ⟨0, 0⟩)).1.ok = false
    ∧ ((rateLimitMiddleware ⟨9, 18, 40, 80⟩ 0 none (some ⟨0, 0⟩)).1 =
        .reject429 (RateLimiter.takeResult (40 : ℚ) 80 0 (some ⟨0, 0⟩)).1.retryAfterMs true
      ∧ (rateLimitMiddleware ⟨9, 18, 40, 80⟩ 0 none (some ⟨0, 0⟩)).2.1 =
          (RateLimiter.takeResult (9 : ℚ) 18 0 none).2
      ∧ ∃ st, (RateLimiter.takeResult (9 : ℚ) 18 0 none).2 = some st
          ∧ st.lastRefill = 0
          ∧ RateLimiter.luaTakeStep (9 : ℚ) 18 0 none = ((1, st.tokens, 0), some st)) :=
  ⟨by norm_num [RateLimiter.takeResult, RateLimiter.luaTakeStep, RateLimiter.refillTokens,
      RateLimiter.windowMs],
   by norm_num [RateLimiter.takeResult, RateLimiter.luaTakeStep, RateLimiter.refillTokens,
      RateLimiter.windowMs],
   global_denial_spends_per_identity_token ⟨9, 18, 40, 80⟩ 0 none (some ⟨0, 0⟩)
     (by norm_num [RateLimiter.takeResult, RateLimiter.luaTakeStep, RateLimiter.refillTokens,
        RateLimiter.windowMs])
     (by norm_num [RateLimiter.takeResult, RateLimiter.luaTakeStep, RateLimiter.refillTokens,
        RateLimiter.windowMs])⟩

/-- C7: a thrown coordination-store script call makes take and takeGlobal
fail open — the call returns ok rather than a denial or an error, and
nothing is persisted. -/
theorem take_fails_open_on_store_error (cfg : RateLimiter.Config) (rps burst : Option ℚ)
    (now : ℤ) (stored : Option BucketState) (msg : String) :
    RateLimiter.take cfg rps burst now stored (.evalError msg) = .ok (⟨true, none⟩, stored)
    ∧ RateLimiter.takeGlobal cfg rps burst now stored (.evalError msg) = .ok (⟨true, none⟩, stored) :=
  ⟨rfl, rfl⟩

/-- C3: addTasks replaces the backlog instead of appending — after two
batches only the second is retrievable — and one batch is then returned by
successive getNextTask calls in first-in-first-out order until the queue
reports empty, without blocking. -/
theorem addTasks_replaces_backlog_and_fifo :
    (∀ (prior : List Task) (a b c : Task),
      JobQueue.addTasks [c] (JobQueue.addTasks [a, b] prior) = [c])
    ∧ (∀ (ts prior : List Task), JobQueue.drain (JobQueue.addTasks ts prior) = ts)
    ∧ JobQueue.getNextTask [] = (none, []) :=
  ⟨fun prior a b c => by simp [addTasks_eq],
   fun ts prior => by simp [addTasks_eq, drain_eq],
   rfl⟩

lemma stepWorker_inactive (s : JobWorker.WorkerState) (e : JobWorker.EnvInput)
    (h : s.active = false) : JobWorker.stepWorker s e = (s, []) := by
  cases s with
  | mk active phase =>
    simp only at h
    subst h
    cases e with
    | mk stopRequested createOutcome updateOutcome =>
      cases stopRequested <;> rfl

lemma runWorker_inactive (es : List JobWorker.EnvInput) :
    ∀ s : JobWorker.WorkerState, s.active = false → JobWorker.runWorker s es = (s, []) := by
  induction es with
  | nil => intro s _; rfl
  | cons e es ih =>
    intro s h
    simp [JobWorker.runWorker, stepWorker_inactive s e h, ih s h]

/-- C6: once a polling update call returns a confirmation, the worker
(two-phase variant, the one the spec designates) emits the success log,
deactivates, and in every continuation of the trace issues no further
update call — indeed no observable action at all. -/
theorem worker_silent_after_confirmation (s : JobWorker.WorkerState)
    (es1 : List JobWorker.EnvInput) (e : JobWorker.EnvInput) (es2 : List JobWorker.EnvInput)
    (appId : String)
    (hphase : (JobWorker.runWorker s es1).1.phase = .polling appId)
    (hactive : (JobWorker.runWorker s es1).1.active = true)
    (hstop : e.stopRequested = false)
    (hconf : JobWorker.updateConfirmed e.updateOutcome = true) :
    JobWorker.stepWorker (JobWorker.runWorker s es1).1 e =
      (⟨false, .finished⟩, [.callUpdate, .logSuccess])
    ∧ JobWorker.runWorker (JobWorker.stepWorker (JobWorker.runWorker s es1).1 e).1 es2 =
        (⟨false, .finished⟩, ([] : List JobWorker.Event)) := by
  have hstep : JobWorker.stepWorker (JobWorker.runWorker s es1).1 e =
      (⟨false, .finished⟩, [.callUpdate, .logSuccess]) := by
    rcases hs : (JobWorker.runWorker s es1).1 with ⟨active, phase⟩
    rw [hs] at hphase hactive
    simp only at hphase hactive
    subst hphase
    subst hactive
    simp [JobWorker.stepWorker, hstop, hconf]
  refine ⟨hstep, ?_⟩
  rw [hstep]
  exact runWorker_inactive es2 ⟨false, .finished⟩ rfl

/-- C6 witness: a worker polling application id app-1 receives a confirmed
200 update response with an empty errors array; it logs the success,
deactivates, and a further iteration produces no action. -/
theorem worker_silent_after_confirmation_witness :
    ((JobWorker.runWorker ⟨true, .polling "app-1"⟩ []).1.phase =
        JobWorker.Phase.polling "app-1")
    ∧ (JobWorker.runWorker ⟨true, .polling "app-1"⟩ []).1.active = true
    ∧ (JobWorker.EnvInput.mk false .networkError (.response 200 (some []))).stopRequested = false
    ∧ JobWorker.updateConfirmed
        (JobWorker.EnvInput.mk false .networkError (.response 200 (some []))).updateOutcome = true
    ∧ (JobWorker.stepWorker (JobWorker.runWorker ⟨true, .polling "app-1"⟩ []).1
          ⟨false, .networkError, .response 200 (some [])⟩ =
        (⟨false, .finished⟩, [.callUpdate, .logSuccess])
      ∧ JobWorker.runWorker
          (JobWorker.stepWorker (JobWorker.runWorker ⟨true, .polling "app-1"⟩ []).1
            ⟨false, .networkError, .response 200 (some [])⟩).1
          [⟨false, .response 200 (some "x"), .response 200 (some [])⟩] =
          (⟨false, .finished⟩, ([] : List JobWorker.Event))) :=
  ⟨rfl, rfl, rfl, rfl,
   worker_silent_after_confirmation ⟨true, .polling "app-1"⟩ []
     ⟨false, .networkError, .response 200 (some [])⟩
     [⟨false, .response 200 (some "x"), .response 200 (some [])⟩] "app-1" rfl rfl rfl rfl⟩

/-- C8: the candidate identity is resolved body-first, then header, then
query (the first truthy value wins, per the spec-side priority list), and
the middleware passes the request on exactly when an identity resolves and
has a stored session; otherwise it answers 400 and the forwarder — which
only runs when the middleware proceeds — makes no upstream call. -/
theorem candidate_identity_resolution (now : ℤ) (store : SessionStore.Store)
    (req : ProxyRequest) :
    CandidateContext.resolveCandidateId req = CandidateContext.resolveCandidateIdSpec req
    ∧ (∀ cid session,
        CandidateContext.candidateContextMiddleware now store req =
            .proceed cid session ↔
          CandidateContext.resolveCandidateIdSpec req = some cid
            ∧ (SessionStore.getCandidateSession now store cid).1 = some session)
    ∧ (CandidateContext.candidateContextMiddleware now store req =
          .respond400 "unknown_candidate" ↔
        (CandidateContext.resolveCandidateIdSpec req = none
          ∨ ∃ cid, CandidateContext.resolveCandidateIdSpec req = some cid
              ∧ (SessionStore.getCandidateSession now store cid).1 = none)) := by
  obtain ⟨hb, b1, b2, hh, q1, q2⟩ := req
  have hres : CandidateContext.resolveCandidateId ⟨hb, b1, b2, hh, q1, q2⟩ =
      CandidateContext.resolveCandidateIdSpec ⟨hb, b1, b2, hh, q1, q2⟩ := by
    cases hb with
    | false =>
      cases hhh : CandidateContext.truthyOpt hh <;>
        cases hq1 : CandidateContext.truthyOpt q1 <;>
          cases hq2 : CandidateContext.truthyOpt q2 <;>
            simp [CandidateContext.resolveCandidateId, CandidateContext.resolveCandidateIdSpec,
              List.findSome?, hhh, hq1, hq2]
    | true =>
      cases hb1 : CandidateContext.truthyOpt b1 <;>
        cases hb2 : CandidateContext.truthyOpt b2 <;>
          cases hhh : CandidateContext.truthyOpt hh <;>
            cases hq1 : CandidateContext.truthyOpt q1 <;>
              cases hq2 : CandidateContext.truthyOpt q2 <;>
                simp [CandidateContext.resolveCandidateId,
                  CandidateContext.resolveCandidateIdSpec, List.findSome?, hb1, hb2, hhh, hq1, hq2]
  refine ⟨hres, ?_, ?_⟩
  · intro cid session
    rw [← hres]
    unfold CandidateContext.candidateContextMiddleware
    cases hr : CandidateContext.resolveCandidateId ⟨hb, b1, b2, hh, q1, q2⟩ with
    | none => simp [hr]
    | some cid0 =>
      cases hg : (SessionStore.getCandidateSession now store cid0).1 with
      | none =>
        simp only [hr, hg]
        constructor
        · intro hpro
          exact absurd hpro (by simp)
        · rintro ⟨hcid, hsess⟩
          injection hcid with h1
          subst h1
          rw [hg] at hsess
          exact absurd hsess (by simp)
      | some sess0 =>
        simp only [hr, hg]
        constructor
        · intro hpro
          injection hpro with h1 h2
          subst h1
          subst h2
          exact ⟨rfl, hg⟩
        · rintro ⟨hcid, hsess⟩
          injection hcid with h1
          subst h1
          rw [hg] at hsess
          injection hsess with h2
          subst h2
          rfl
  · rw [← hres]
    unfold CandidateContext.candidateContextMiddleware
    cases hr : CandidateContext.resolveCandidateId ⟨hb, b1, b2, hh, q1, q2⟩ with
    | none => simp [hr]
    | some cid0 =>
      cases hg : (SessionStore.getCandidateSession now store cid0).1 with
      | none =>
        simp only [hr, hg]
        constructor
        · intro _
          exact Or.inr ⟨cid0, rfl, hg⟩
        · intro _
          trivial
      | some sess0 =>
        simp only [hr, hg]
        constructor
        · intro hpro
          exact absurd hpro (by simp)
        · rintro (hnone | ⟨cid, hcid, hsess⟩)
          · exact absurd hnone (by simp)
          · injection hcid with h1
            subst h1
            rw [hg] at hsess
            exact absurd hsess (by simp)

/-- C10: cookie-to-host matching in the forwarder is a raw string suffix
test after stripping one leading dot from each side, with no
label-boundary check, so a cookie for domain zon.com — not a registrable
suffix of hiring.amazon.com, which neither equals zon.com nor ends with
.zon.com — is still serialized into the upstream Cookie header. -/
theorem cookie_domain_match_is_raw_suffix :
    Upstream.serializeCookies
        [⟨"sid", "1", "zon.com", none, none, none, none, none⟩] "hiring.amazon.com" 7 = "sid=1"
    ∧ Upstream.strEndsWith "hiring.amazon.com" ".zon.com" = false
    ∧ "hiring.amazon.com" ≠ "zon.com"
    ∧ (∀ (c : SCookie) (host : String),
        Upstream.domainMatches c host = true ↔
          (Upstream.strEndsWith (Upstream.stripLeadingDot host)
              (Upstream.stripLeadingDot c.domain) = true
            ∨ Upstream.stripLeadingDot c.domain = Upstream.stripLeadingDot host))
    ∧ ∀ s post : String, Upstream.strEndsWith s post = true ↔ post.data <:+ s.data := by
  refine ⟨by decide, by decide, by decide, ?_, ?_⟩
  · intro c host
    simp [Upstream.domainMatches]
  · intro s post
    exact List.isSuffixOf_iff_suffix

/-- C5 counterexample: a request carrying the worker identifier header
x-worker-id (and nothing else) is forwarded with upstream headers that do
not include it — against the claim that the worker identifier header is
propagated when present. -/
theorem forwarder_drops_worker_identifier_header :
    ((fun h => if h = "x-worker-id" then some "w1" else none) : Upstream.Headers)
        "x-worker-id" = some "w1"
    ∧ Upstream.buildUpstreamHeaders
        (fun h => if h = "x-worker-id" then some "w1" else none)
        ⟨"cand", "", [], none, 0, none⟩ "hiring.amazon.com" 0 = [("Cookie", "")] := by
  refine ⟨by decide, by decide⟩

/-- C5 (amended): exactly the seven allow-listed headers — content-type,
accept, accept-language, user-agent, x-requested-with, origin, referer,
without any worker identifier header — are propagated from the incoming
request when present with a nonempty value; every other incoming header is
dropped, and beyond the propagated ones the forwarder only adds the
injected credential headers. -/
theorem forwarder_propagates_exactly_allowlist (reqHeaders : Upstream.Headers)
    (session : CandidateSession) (host : String) (now : ℤ) :
    (∀ h v, (h, v) ∈ Upstream.propagatedHeaders reqHeaders ↔
      h ∈ Upstream.safeHeaders ∧ reqHeaders h = some v ∧ v.isEmpty = false)
    ∧ ∀ h v, (h, v) ∈ Upstream.buildUpstreamHeaders reqHeaders session host now →
        h ∈ Upstream.safeHeaders ∨ h = "Authorization" ∨ h = "Cookie" ∨ h = "X-Csrf-Token" := by
  have hprop : ∀ h v, (h, v) ∈ Upstream.propagatedHeaders reqHeaders ↔
      h ∈ Upstream.safeHeaders ∧ reqHeaders h = some v ∧ v.isEmpty = false := by
    intro h v
    simp only [Upstream.propagatedHeaders, List.mem_filterMap]
    constructor
    · rintro ⟨a, ha, hfa⟩
      cases hv : reqHeaders a with
      | none =>
        simp only [hv] at hfa
        exact absurd hfa (by simp)
      | some w =>
        simp only [hv] at hfa
        by_cases he : w.isEmpty = true
        · rw [if_pos he] at hfa
          exact absurd hfa (by simp)
        · rw [if_neg he] at hfa
          injection hfa with hpair
          obtain ⟨h1, h2⟩ := Prod.mk.injEq .. ▸ hpair
          subst h1
          subst h2
          exact ⟨ha, hv, Bool.not_eq_true _ ▸ he⟩
    · rintro ⟨hmem, hv, hne⟩
      refine ⟨h, hmem, ?_⟩
      simp [hv, hne]
  refine ⟨hprop, ?_⟩
  intro h v hmem
  simp only [Upstream.buildUpstreamHeaders, List.append_assoc, List.mem_append] at hmem
  rcases hmem with hmem | hmem | hmem | hmem
  · exact Or.inl (((hprop h v).mp hmem).1)
  · by_cases ha : session.accessToken.isEmpty = true
    · rw [if_pos ha] at hmem
      exact absurd hmem (by simp)
    · rw [if_neg ha] at hmem
      simp only [List.mem_singleton] at hmem
      obtain ⟨h1, _⟩ := Prod.mk.injEq .. ▸ hmem
      exact Or.inr (Or.inl h1)
  · simp only [List.mem_singleton] at hmem
    obtain ⟨h1, _⟩ := Prod.mk.injEq .. ▸ hmem
    exact Or.inr (Or.inr (Or.inl h1))
  · cases hc : session.csrf with
    | none => simp only [hc, List.not_mem_nil] at hmem
    | some c =>
      simp only [hc] at hmem
      by_cases he : c.isEmpty = true
      · rw [if_pos he] at hmem
        exact absurd hmem (by simp)
      · rw [if_neg he] at hmem
        simp only [List.mem_singleton] at hmem
        obtain ⟨h1, _⟩ := Prod.mk.injEq .. ▸ hmem
        exact Or.inr (Or.inr (Or.inr h1))

/-- C4 counterexample: at read time 100, the round trip of a jar holding a
cookie that expired at epoch instant 0 (a time strictly before the read,
second conjunct) still returns that cookie — the truthiness guard on
expires skips the expiry comparison for the falsy value 0, so the claim
that only unexpired cookies come back fails on this input. -/
theorem session_roundtrip_keeps_epoch_expired_cookie :
    ((SessionStore.getCandidateSession 100
        (SessionStore.upsertCandidateSession 100 SessionStore.emptyStore "cand" "tok"
          [⟨"a", "1", "d.com", none, some 0, none, none, none⟩,
           ⟨"v", "2", "d.com", none, none, none, none, none⟩] none none)
        "cand").1.map fun s => s.cookies.map fun c => (c.name, c.expires)) =
      some [("a", some 0), ("v", none)]
    ∧ (0 : ℤ) < 100 :=
  ⟨by decide, by decide⟩

lemma keepCookie_applyDefaults (now : ℤ) (c : SCookie) :
    SessionStore.keepCookie now (SessionStore.applyCookieDefaults c) =
      SessionStore.keepCookie now c := rfl

lemma applyCookieDefaults_idem (c : SCookie) :
    SessionStore.applyCookieDefaults (SessionStore.applyCookieDefaults c) =
      SessionStore.applyCookieDefaults c := by
  cases c with
  | mk name value domain path expires httpOnly secure sameSite =>
    cases path with
    | none => simp [SessionStore.applyCookieDefaults, SessionStore.jsOrStr]
    | some p =>
      by_cases hp : p.isEmpty = true
      · simp [SessionStore.applyCookieDefaults, SessionStore.jsOrStr, hp]
      · simp [SessionStore.applyCookieDefaults, SessionStore.jsOrStr, hp]

lemma keepCookie_mono (now now' : ℤ) (h : now ≤ now') (c : SCookie) :
    (SessionStore.keepCookie now c && SessionStore.keepCookie now' c) =
      SessionStore.keepCookie now' c := by
  unfold SessionStore.keepCookie SessionStore.expiredByTruthyCheck
  cases hc : c.expires with
  | none => simp
  | some e =>
    by_cases h0 : e = 0
    · simp [h0]
    · by_cases hlt : e < now'
      · simp [h0, hlt]
      · have hnot : ¬ e < now := fun hl => hlt (lt_of_lt_of_le hl h)
        simp [h0, hlt, hnot]

lemma normalizeCookies_twice (now now' : ℤ) (h : now ≤ now') (cookies : List SCookie) :
    SessionStore.normalizeCookies now' (SessionStore.normalizeCookies now cookies) =
      SessionStore.normalizeCookies now' cookies := by
  unfold SessionStore.normalizeCookies
  have hfil : ∀ c ∈ cookies,
      ((SessionStore.keepCookie now' ∘ SessionStore.applyCookieDefaults) c
        && SessionStore.keepCookie now c) = SessionStore.keepCookie now' c := by
    intro c _
    rw [Function.comp_apply, keepCookie_applyDefaults, Bool.and_comm]
    exact keepCookie_mono now now' h c
  rw [List.filter_map, List.map_map, List.filter_filter, List.filter_congr hfil]
  exact List.map_congr_left fun c _ => applyCookieDefaults_idem c

/-- C4 (amended): upsert followed by get within the session time-to-live
returns the session whose jar is the upserted cookie list normalized at
read time: exactly the cookies with truthy name, value and domain whose
expires is unset, the falsy value 0, or not in the past at read time, with
defaults path /, httpOnly true, secure true and sameSite Lax applied to
unset fields. -/
theorem session_roundtrip_returns_renormalized_jar
    (now now' : ℤ) (store : SessionStore.Store) (candidateId accessToken : String)
    (cookies : List SCookie) (csrf : Option String) (ttlSeconds : Option ℤ)
    (h1 : now ≤ now')
    (h2 : now' ≤ now + SessionStore.jsOrInt ttlSeconds (86400 * 7)) :
    (SessionStore.getCandidateSession now'
        (SessionStore.upsertCandidateSession now store candidateId accessToken cookies csrf
          ttlSeconds) candidateId).1 =
      some ⟨candidateId, accessToken, SessionStore.normalizeCookies now' cookies, csrf, now,
        some (now + SessionStore.jsOrInt ttlSeconds (86400 * 7))⟩
    ∧ ∀ c ∈ SessionStore.normalizeCookies now' cookies,
        c.name.isEmpty = false ∧ c.value.isEmpty = false ∧ c.domain.isEmpty = false
        ∧ (∀ e, c.expires = some e → e = 0 ∨ ¬ e < now')
        ∧ c.path ≠ none ∧ c.httpOnly ≠ none ∧ c.secure ≠ none ∧ c.sameSite ≠ none := by
  constructor
  · have httl : ¬ (now + SessionStore.jsOrInt ttlSeconds (86400 * 7) < now') := not_lt.mpr h2
    simp only [SessionStore.upsertCandidateSession, SessionStore.getCandidateSession,
      SessionStore.expiredByTruthyCheck, normalizeCookies_twice now now' h1 cookies,
      if_pos rfl]
    split_ifs with hcon
    · simp only [Bool.and_eq_true, decide_eq_true_eq] at hcon
      exact absurd hcon.2 httl
    · rfl
  · intro c hc
    unfold SessionStore.normalizeCookies at hc
    simp only [List.mem_map] at hc
    obtain ⟨c0, hc0mem, hc0⟩ := hc
    subst hc0
    have hkeep : SessionStore.keepCookie now' c0 = true := (List.mem_filter.mp hc0mem).2
    unfold SessionStore.keepCookie at hkeep
    rw [Bool.and_eq_true, Bool.and_eq_true, Bool.and_eq_true] at hkeep
    obtain ⟨hexpb, ⟨hnameb, hvalb⟩, hdomb⟩ := hkeep
    have hexp : SessionStore.expiredByTruthyCheck now' c0.expires = false := by
      simpa using hexpb
    have hname : c0.name.isEmpty = false := by simpa using hnameb
    have hval : c0.value.isEmpty = false := by simpa using hvalb
    have hdom : c0.domain.isEmpty = false := by simpa using hdomb
    refine ⟨hname, hval, hdom, ?_, ?_, ?_, ?_, ?_⟩
    · intro e he
      have he0 : c0.expires = some e := he
      by_cases h0 : e = 0
      · exact Or.inl h0
      · refine Or.inr fun hlt => ?_
        rw [he0] at hexp
        unfold SessionStore.expiredByTruthyCheck at hexp
        simp [h0, hlt] at hexp
    · simp [SessionStore.applyCookieDefaults]
    · simp [SessionStore.applyCookieDefaults]
    · simp [SessionStore.applyCookieDefaults]
    · simp [SessionStore.applyCookieDefaults]

/-- C4 witness for the amended round trip: one fully-bare valid cookie
upserted at instant 0 and read at instant 1 comes back normalized with all
the defaults set. -/
theorem session_roundtrip_returns_renormalized_jar_witness :
    (0 : ℤ) ≤ 1
    ∧ (1 : ℤ) ≤ 0 + SessionStore.jsOrInt none (86400 * 7)
    ∧ ((SessionStore.getCandidateSession 1
          (SessionStore.upsertCandidateSession 0 SessionStore.emptyStore "cand" "tok"
            [⟨"n", "v", "d", none, none, none, none, none⟩] none none) "cand").1 =
        some ⟨"cand", "tok",
          SessionStore.normalizeCookies 1 [⟨"n", "v", "d", none, none, none, none, none⟩],
          none, 0, some (0 + SessionStore.jsOrInt none (86400 * 7))⟩
      ∧ ∀ c ∈ SessionStore.normalizeCookies 1 [⟨"n", "v", "d", none, none, none, none, none⟩],
          c.name.isEmpty = false ∧ c.value.isEmpty = false ∧ c.domain.isEmpty = false
          ∧ (∀ e, c.expires = some e → e = 0 ∨ ¬ e < 1)
          ∧ c.path ≠ none ∧ c.httpOnly ≠ none ∧ c.secure ≠ none ∧ c.sameSite ≠ none) :=
  ⟨by norm_num, by norm_num [SessionStore.jsOrInt],
   session_roundtrip_returns_renormalized_jar 0 1 SessionStore.emptyStore "cand" "tok"
     [⟨"n", "v", "d", none, none, none, none, none⟩] none none (by norm_num)
     (by norm_num [SessionStore.jsOrInt])⟩

end Server